import Mathlib

/-!
Verification of the xsknf AF_XDP packet-processing framework core
(src/xsknf.c) against its natural-language specification.

The development shallowly embeds the pure control and data logic of the
source: ring contents are lists, stack arrays indexed by 8-bit counters
are modelled as functions together with a counter that wraps modulo 256
(the C counters are uint8_t), machine integers are Nat or Int with
explicit wrapping where it matters, and interactions with the kernel
(ring reservation results, getsockopt outcomes, the classifier callback)
are oracle parameters.
-/

/- ------------------------------------------------------------------ -/
/- Frame-address codec (xsknf.c lines 29-37, 121-173, 900-904)        -/
/- ------------------------------------------------------------------ -/

/-- Mirror of the C macro FRAMES_PER_SOCKET_SHIFT (xsknf.c line 36). -/
def FRAMES_PER_SOCKET_SHIFT : Nat := 12

/-- Mirror of the C macro FRAMES_PER_SOCKET = 1 << 12 (xsknf.c line 37). -/
def FRAMES_PER_SOCKET : Nat := 2 ^ FRAMES_PER_SOCKET_SHIFT

/-- Model of the C builtin ffs: index (1-based) of the least significant
set bit, 0 when the argument is 0. -/
def ffs : Nat → Nat
  | 0 => 0
  | n + 1 => if (n + 1) % 2 = 1 then 1 else ffs ((n + 1) / 2) + 1
decreasing_by exact Nat.div_lt_self (Nat.succ_pos n) Nat.one_lt_two

/-- owner_shift as computed in xsknf_init (xsknf.c lines 903-904):
FRAMES_PER_SOCKET_SHIFT + __builtin_ffs(conf.xsk_frame_size) - 1. -/
def owner_shift_of (frame_size : Nat) : Nat :=
  FRAMES_PER_SOCKET_SHIFT + ffs frame_size - 1

/-- Address primed into the fill ring of socket if_idx at slot k
(xsknf.c lines 168-171 with umem_offset = if_idx * FRAMES_PER_SOCKET
from line 997): (umem_offset + k) * conf.xsk_frame_size. -/
def fill_ring_addr (if_idx k frame_size : Nat) : Nat :=
  (if_idx * FRAMES_PER_SOCKET + k) * frame_size

/-- Owner decode used by complete_tx (xsknf.c line 453): addr >> owner_shift. -/
def decode_owner (addr shift : Nat) : Nat := addr >>> shift

/- ------------------------------------------------------------------ -/
/- Bucketed stack arrays with uint8_t counters                        -/
/- (model of to_fill/nfill, to_drop/ndrop, to_tx/ntx in xsknf.c)      -/
/- ------------------------------------------------------------------ -/

/-- A family of C stack arrays indexed by a key, together with one
counter per key. The counter is a C uint8_t, so every increment is
taken modulo 256 (xsknf.c lines 425-426, 487-488, 637-638). -/
structure Buckets (K A : Type) where
  arr : K → Nat → A
  cnt : K → Nat

/-- All counters zero; the array contents are indeterminate stack
memory, modelled by a fixed default element. -/
def Buckets.empty {K A : Type} (a0 : A) : Buckets K A :=
  ⟨fun _ _ => a0, fun _ => 0⟩

/-- The C idiom arr[key][cnt[key]++] = x with a uint8_t counter:
write x at the current counter position of the key, then increment
the counter modulo 256. -/
def Buckets.insert {K A : Type} [DecidableEq K]
    (s : Buckets K A) (k : K) (x : A) : Buckets K A :=
  ⟨fun k2 i => if k2 = k ∧ i = s.cnt k then x else s.arr k2 i,
   fun k2 => if k2 = k then (s.cnt k + 1) % 256 else s.cnt k2⟩

/-- The slice arr[k][0 .. cnt[k]-1] that subsequent code reads back
(the fill-ring submission loops in xsknf.c lines 469-471, 542-544). -/
def Buckets.list {K A : Type} (s : Buckets K A) (k : K) : List A :=
  (List.range (s.cnt k)).map (s.arr k)

/- ------------------------------------------------------------------ -/
/- complete_tx (xsknf.c lines 418-480): drain of the completion ring  -/
/- ------------------------------------------------------------------ -/

/-- The owner-bucketing loop of complete_tx (xsknf.c lines 450-455):
for each completed address, owner = addr >> owner_shift and
to_fill[owner][nfill[owner]++] = addr, with nfill a uint8_t array. -/
def complete_tx_drain (shift : Nat) (addrs : List Nat) : Buckets Nat Nat :=
  addrs.foldl (fun s addr => s.insert (decode_owner addr shift) addr)
    (Buckets.empty 0)

/-- The fill-ring submission of complete_tx (xsknf.c lines 461-476):
for each owner the addresses to_fill[i][0 .. nfill[i]-1] are reserved
and submitted on the fill ring of socket i. -/
def complete_tx_submission (s : Buckets Nat Nat) (owner : Nat) : List Nat :=
  s.list owner

/- ------------------------------------------------------------------ -/
/- The classify loop of process_batch (xsknf.c lines 507-526) and of  -/
/- process_batch_1if (xsknf.c lines 657-676)                          -/
/- ------------------------------------------------------------------ -/

/-- libxdp xsk_umem__add_offset_to_addr: low 48 bits plus the offset
carried in the high 16 bits; applied before reading packet bytes
(xsknf.c lines 513, 663). -/
def addOffsetToAddr (addr : Nat) : Nat :=
  addr % 2 ^ 48 + addr >>> 48

/-- Per-packet verdict of the run-loop. The constructor abortFatal
exists so that the behaviour demanded by the spec (abort on a
classifier contract violation) is expressible; the code never
produces it. -/
inductive PktVerdict where
  | dropped
  | enqueueTx (dest : Int)
  | abortFatal
deriving DecidableEq

/-- The dispatch on the classifier return in process_batch
(xsknf.c lines 516-525): ret == -1 goes to the drop queue, ANY other
value ret is enqueued into to_tx[ret] with no range check. -/
def classifyVerdict (ret : Int) : PktVerdict :=
  if ret = -1 then .dropped else .enqueueTx ret

/-- The dispatch in process_batch_1if (xsknf.c lines 666-675): ret ==
-1 goes to the drop queue, any other value is enqueued on the single
tx queue (index 0), again with no range check. -/
def classifyVerdict1if (ret : Int) : PktVerdict :=
  if ret = -1 then .dropped else .enqueueTx 0

/-- Modelled from the spec: the spec text says a classifier return
other than -1 or an interface index in [0, num_interfaces) is a
contract violation treated as a fatal programming error (abort with
diagnostic). This definition follows the words of the spec and is
compared against classifyVerdict, which embeds the source. -/
def classifyVerdictSpec (nI : Nat) (ret : Int) : PktVerdict :=
  if ret = -1 then .dropped
  else if 0 ≤ ret ∧ ret < nI then .enqueueTx ret
  else .abortFatal

/-- State of the classification loop of process_batch: the drop array
with its uint8_t counter (a single unkeyed bucket) and the per-target
tx arrays with their uint8_t counters. Targets are keyed by the raw
classifier return, as in the C code, where an out-of-range return
indexes out of bounds. -/
structure ClassifyState where
  dropB : Buckets Unit (Nat × Nat)
  txB : Buckets Int (Nat × Nat)

/-- One iteration of the classify loop of process_batch (xsknf.c lines
508-526). A descriptor is a pair (addr, len); cls is the classifier
oracle xsknf_packet_processor, a function of the offset-adjusted
address (standing for the packet pointer), the length and the ingress
interface. The original address orig is kept for enqueueing. -/
def classify_step (cls : Nat → Nat → Nat → Int) (ifidx : Nat)
    (s : ClassifyState) (d : Nat × Nat) : ClassifyState :=
  let ret := cls (addOffsetToAddr d.1) d.2 ifidx
  if ret = -1 then
    { s with dropB := s.dropB.insert () d }
  else
    { s with txB := s.txB.insert ret d }

/-- The whole classify loop of process_batch over a received batch. -/
def classify_batch (cls : Nat → Nat → Nat → Int) (ifidx : Nat)
    (descs : List (Nat × Nat)) : ClassifyState :=
  descs.foldl (classify_step cls ifidx)
    ⟨Buckets.empty (0, 0), Buckets.empty (0, 0)⟩

/-- The addresses submitted back on the ingress fill ring for dropped
packets (xsknf.c lines 535-547): to_drop[i].addr for i < ndrop. -/
def drop_fill_submission (s : ClassifyState) : List Nat :=
  (s.dropB.list ()).map Prod.fst

/-- State of the classification loop of process_batch_1if: a drop
array and a single tx array, each with a uint8_t counter. -/
structure Classify1ifState where
  dropB : Buckets Unit (Nat × Nat)
  txB : Buckets Unit (Nat × Nat)

/-- One iteration of the classify loop of process_batch_1if (xsknf.c
lines 658-676); the classifier is called with interface index 0. -/
def classify1if_step (cls : Nat → Nat → Nat → Int)
    (s : Classify1ifState) (d : Nat × Nat) : Classify1ifState :=
  let ret := cls (addOffsetToAddr d.1) d.2 0
  if ret = -1 then
    { s with dropB := s.dropB.insert () d }
  else
    { s with txB := s.txB.insert () d }

/-- The whole classify loop of process_batch_1if. -/
def classify1if_batch (cls : Nat → Nat → Nat → Int)
    (descs : List (Nat × Nat)) : Classify1ifState :=
  descs.foldl (classify1if_step cls)
    ⟨Buckets.empty (0, 0), Buckets.empty (0, 0)⟩

/-- The addresses submitted back on the fill ring for dropped packets
in process_batch_1if (xsknf.c lines 682-694). -/
def drop_fill_submission_1if (s : Classify1ifState) : List Nat :=
  (s.dropB.list ()).map Prod.fst

/- ------------------------------------------------------------------ -/
/- The tx reservation retry loop of the forward phase                 -/
/- (xsknf.c lines 552-565)                                            -/
/- ------------------------------------------------------------------ -/

/-- Observable actions of the forward phase of process_batch. -/
inductive FwdAct where
  | reserveTx (dest ntx : Nat)
  | callCompleteTx (ifidx : Nat)
  | kick (dest : Nat)
  | fatal
deriving DecidableEq

/-- Trace of the tx reservation retry loop in the forward phase of
process_batch (xsknf.c lines 554-565). ifindex is the interface whose
batch is being processed (the rx side), dest is the destination
interface i with a non-empty to_tx bucket, ntx the number of entries
to reserve, bp is conf.busy_poll. The oracle lists the outcomes of the
successive reserve calls that do not end the loop, as pairs of the
returned count and the needs-wakeup flag of the destination tx ring at
that point; when the oracle is exhausted the next reservation returns
ntx and the loop exits. The loop body calls complete_tx(xsks, ifindex)
- the rx interface - while the wakeup kick goes to the destination
socket xsks[i]. -/
def txRetryLoop (ifindex dest ntx : Nat) (bp : Bool) :
    List (Int × Bool) → List FwdAct
  | [] => [.reserveTx dest ntx]
  | (r, w) :: rest =>
      .reserveTx dest ntx ::
        (if r = (ntx : Int) then []
         else if r < 0 then [.fatal]
         else .callCompleteTx ifindex ::
           ((if bp || w then [.kick dest] else [])
             ++ txRetryLoop ifindex dest ntx bp rest))

/- ------------------------------------------------------------------ -/
/- xsknf_cleanup (xsknf.c lines 1022-1048)                            -/
/- ------------------------------------------------------------------ -/

/-- Allocation state of the heap blocks xsknf_cleanup releases: the
worker arrays (workers[w].xsks and the workers array itself, freed at
xsknf.c lines 1035-1037) and the ifindex table (freed at line 1047). -/
structure CleanupState where
  workersAllocated : Bool
  ifindexesAllocated : Bool
deriving DecidableEq

/-- Heap misuse surfaced by the model. -/
inductive MemErr where
  | doubleFree
deriving DecidableEq

/-- free() of the worker arrays: undefined behaviour when they were
already released (the C code does not null the pointers). -/
def freeWorkerArrays (s : CleanupState) : Except MemErr CleanupState :=
  if s.workersAllocated then .ok { s with workersAllocated := false }
  else .error .doubleFree

/-- free(ifindexes): undefined behaviour when already released. -/
def freeIfindexes (s : CleanupState) : Except MemErr CleanupState :=
  if s.ifindexesAllocated then .ok { s with ifindexesAllocated := false }
  else .error .doubleFree

/-- xsknf_cleanup (xsknf.c lines 1022-1048): stop workers, then in
AF_XDP mode delete sockets and umems and free the worker arrays, then
in every mode detach the XDP programs (stateless here) and free the
ifindex table. No pointer is nulled and no flag guards a second
call. -/
def xsknf_cleanup (modeAfxdp : Bool) (s : CleanupState) :
    Except MemErr CleanupState :=
  (if modeAfxdp then freeWorkerArrays s else .ok s).bind freeIfindexes

/-- Allocation state after a successful xsknf_init in AF_XDP mode:
both heap blocks live. -/
def initCleanupState : CleanupState := ⟨true, true⟩

/- ------------------------------------------------------------------ -/
/- Socket statistics (xsknf.c lines 84-106, 1118-1128)                -/
/- ------------------------------------------------------------------ -/

/-- The six driver counters of struct xdp_statistics. -/
structure XdpStatistics where
  rx_dropped : Nat
  rx_invalid_descs : Nat
  tx_invalid_descs : Nat
  rx_ring_full : Nat
  rx_fill_ring_empty_descs : Nat
  tx_ring_empty_descs : Nat
deriving DecidableEq

/-- The per-socket counters of struct xsknf_socket_stats. -/
structure XsknfSocketStats where
  rx_npkts : Nat
  tx_npkts : Nat
  rx_dropped_npkts : Nat
  rx_invalid_npkts : Nat
  tx_invalid_npkts : Nat
  rx_full_npkts : Nat
  rx_fill_empty_npkts : Nat
  tx_empty_npkts : Nat
  rx_empty_polls : Nat
  tx_trigger_sendtos : Nat
  tx_wakeup_sendtos : Nat
  opt_polls : Nat
deriving DecidableEq

/-- xsk_get_xdp_stats (xsknf.c lines 84-106). The getsockopt call is
an oracle: either an OS error, or the xdp_statistics payload together
with the optlen value written back by the kernel. On success with
optlen equal to sizeof(struct xdp_statistics) = 48 the six driver
counters of the socket stats are overwritten and 0 is returned; on any
other optlen -EINVAL = -22 is returned; on error the error is
returned, the stats untouched. -/
def xsk_get_xdp_stats (kr : Except Int (XdpStatistics × Nat))
    (st : XsknfSocketStats) : Int × XsknfSocketStats :=
  match kr with
  | .error e => (e, st)
  | .ok (x, optlen) =>
      if optlen = 48 then
        (0, { st with
          rx_dropped_npkts := x.rx_dropped,
          rx_invalid_npkts := x.rx_invalid_descs,
          tx_invalid_npkts := x.tx_invalid_descs,
          rx_full_npkts := x.rx_ring_full,
          rx_fill_empty_npkts := x.rx_fill_ring_empty_descs,
          tx_empty_npkts := x.tx_ring_empty_descs })
      else (-22, st)

/-- xsknf_get_socket_stats (xsknf.c lines 1118-1128): calls
xsk_get_xdp_stats on the socket stats, DISCARDS its return value,
copies the stats struct into the caller buffer and returns 0. The
result triple is (return value, updated internal stats, caller
snapshot). -/
def xsknf_get_socket_stats (kr : Except Int (XdpStatistics × Nat))
    (st : XsknfSocketStats) : Int × XsknfSocketStats × XsknfSocketStats :=
  let r := xsk_get_xdp_stats kr st
  (0, r.2, r.2)

/- ------------------------------------------------------------------ -/
/- Bind-flag resolution (xsknf.c lines 907-923)                       -/
/- ------------------------------------------------------------------ -/

/-- Bind-flag bit XDP_COPY = 1 << 1 (linux/if_xdp.h). -/
def XDP_COPY : Nat := 2

/-- Bind-flag bit XDP_ZEROCOPY = 1 << 2 (linux/if_xdp.h). -/
def XDP_ZEROCOPY : Nat := 4

/-- Bind-flag bit XDP_USE_NEED_WAKEUP = 1 << 3 (linux/if_xdp.h),
the DEFAULT_BIND_FLAGS of xsknf.c line 39. -/
def XDP_USE_NEED_WAKEUP : Nat := 8

/-- Bind-flag resolution for one interface in xsknf_init (xsknf.c
lines 907-923): when SKB mode is requested globally, clear
XDP_ZEROCOPY (a 32-bit and with the complement mask 0xFFFFFFFB) and
set XDP_COPY; afterwards, when neither copy nor zero-copy is set,
set XDP_ZEROCOPY. -/
def resolveBindFlags (skbMode : Bool) (flags : Nat) : Nat :=
  let f1 := if skbMode then flags &&& 0xFFFFFFFB ||| XDP_COPY else flags
  if f1 &&& (XDP_COPY ||| XDP_ZEROCOPY) = 0 then f1 ||| XDP_ZEROCOPY else f1

/- ------------------------------------------------------------------ -/
/- Frame-size validation in xsknf_parse_args                          -/
/- (xsknf.c lines 827-829, 861-864, 870-877)                          -/
/- ------------------------------------------------------------------ -/

/-- Bitwise and of two 32-bit C ints in twos complement. -/
def landC32 (a b : Int) : Int :=
  Int.ofNat ((a.emod 4294967296).toNat &&& (b.emod 4294967296).toNat)

/-- The frame-size path of xsknf_parse_args: option -f stores
atoi(optarg) into config->xsk_frame_size (xsknf.c lines 827-829);
after option processing, parsing aborts via usage() when no interface
was configured (lines 861-864) or when the power-of-two test
xsk_frame_size & (xsk_frame_size - 1), taken in C int arithmetic,
is non-zero while unaligned chunks are off (lines 870-875); otherwise
the function returns 0 with the value stored. The result on success is
the stored frame size paired with the return value. -/
def xsknf_parse_frame_size (frameSizeArg : Int) (unalignedChunks : Bool)
    (numInterfaces : Nat) : Except Unit (Int × Int) :=
  if numInterfaces = 0 then .error ()
  else if landC32 frameSizeArg (frameSizeArg - 1) ≠ 0 ∧ ¬ unalignedChunks
    then .error ()
  else .ok (frameSizeArg, 0)

/- ------------------------------------------------------------------ -/
/- enter_xsks_into_map (xsknf.c lines 175-199)                        -/
/- ------------------------------------------------------------------ -/

/-- Contents of the xsks eBPF map as a partial function of the key. -/
def XsksMap : Type := Nat → Option Nat

/-- bpf_map_update_elem on the xsks map. -/
def bpf_map_update (m : XsksMap) (key fd : Nat) : XsksMap :=
  fun k => if k = key then some fd else m k

/-- enter_xsks_into_map (xsknf.c lines 187-198): for every interface
index (outer loop) and every worker index (inner loop), update the map
at key = worker index - the interface index does not enter the key -
with the socket fd of that (worker, interface) pair, here abstracted
as a function fd of the worker and interface indices. -/
def enter_xsks_into_map (nI workers : Nat) (fd : Nat → Nat → Nat) : XsksMap :=
  (List.range nI).foldl
    (fun m ifIdx =>
      (List.range workers).foldl
        (fun m2 wrkIdx => bpf_map_update m2 wrkIdx (fd wrkIdx ifIdx)) m)
    (fun _ => none)

/- ------------------------------------------------------------------ -/
/- Theorems                                                           -/
/- ------------------------------------------------------------------ -/

theorem Buckets.cnt_insert {K A : Type} [DecidableEq K]
    (s : Buckets K A) (k k2 : K) (x : A) :
    (s.insert k x).cnt k2 = if k2 = k then (s.cnt k + 1) % 256 else s.cnt k2 := rfl

theorem Buckets.list_insert_self {K A : Type} [DecidableEq K]
    (s : Buckets K A) (k : K) (x : A) (h : s.cnt k ≤ 254) :
    (s.insert k x).list k = s.list k ++ [x] := by
  have hcnt : (s.insert k x).cnt k = s.cnt k + 1 := by
    rw [Buckets.cnt_insert]
    simp [Nat.mod_eq_of_lt (by omega : s.cnt k + 1 < 256)]
  unfold Buckets.list
  rw [hcnt, List.range_succ, List.map_append]
  have harr : ∀ i ∈ List.range (s.cnt k),
      (s.insert k x).arr k i = s.arr k i := by
    intro i hi
    have hilt : i < s.cnt k := List.mem_range.mp hi
    show (if k = k ∧ i = s.cnt k then x else s.arr k i) = s.arr k i
    simp [Nat.ne_of_lt hilt]
  rw [List.map_congr_left harr]
  have hlast : (s.insert k x).arr k (s.cnt k) = x := by
    show (if k = k ∧ s.cnt k = s.cnt k then x else s.arr k (s.cnt k)) = x
    simp
  simp [hlast]

theorem Buckets.list_insert_other {K A : Type} [DecidableEq K]
    (s : Buckets K A) (k k2 : K) (x : A) (h : k2 ≠ k) :
    (s.insert k x).list k2 = s.list k2 := by
  have hcnt : (s.insert k x).cnt k2 = s.cnt k2 := by
    rw [Buckets.cnt_insert]
    simp [h]
  unfold Buckets.list
  rw [hcnt]
  apply List.map_congr_left
  intro i _
  show (if k2 = k ∧ i = s.cnt k then x else s.arr k2 i) = s.arr k2 i
  simp [h]

/-- Folding the uint8-counter bucket insert over a list of at most 255
elements (counting what is already in the buckets) behaves exactly:
each counter holds the exact per-key count and each bucket slice is
the keyed sublist, in order, with nothing lost or duplicated. -/
theorem buckets_foldl_exact {K A : Type} [DecidableEq K] (keyf : A → K) :
    ∀ (l : List A) (s : Buckets K A),
      (∀ k, s.cnt k + l.length ≤ 255) →
      ∀ k, ((l.foldl (fun s2 x => s2.insert (keyf x) x) s).cnt k
              = s.cnt k + (l.filter (fun x => keyf x = k)).length)
        ∧ ((l.foldl (fun s2 x => s2.insert (keyf x) x) s).list k
              = s.list k ++ l.filter (fun x => keyf x = k)) := by
  intro l
  induction l with
  | nil => intro s _ k; simp
  | cons x t ih =>
      intro s hs k
      have hκ : s.cnt (keyf x) + 1 ≤ 255 := by
        have := hs (keyf x)
        simp at this
        omega
      have hcnt2 : ∀ k2, (s.insert (keyf x) x).cnt k2 + t.length ≤ 255 := by
        intro k2
        rw [Buckets.cnt_insert]
        by_cases hk2 : k2 = keyf x
        · have := hs (keyf x)
          simp [hk2, Nat.mod_eq_of_lt (by omega : s.cnt (keyf x) + 1 < 256)]
          simp at this
          omega
        · have := hs k2
          simp [hk2]
          simp at this
          omega
      have hstep := ih (s.insert (keyf x) x) hcnt2 k
      have hfold : (x :: t).foldl (fun s2 y => s2.insert (keyf y) y) s
          = t.foldl (fun s2 y => s2.insert (keyf y) y) (s.insert (keyf x) x) := rfl
      by_cases hk : keyf x = k
      · subst hk
        have hcntins : (s.insert (keyf x) x).cnt (keyf x) = s.cnt (keyf x) + 1 := by
          rw [Buckets.cnt_insert]
          simp [Nat.mod_eq_of_lt (by omega : s.cnt (keyf x) + 1 < 256)]
        have hlistins := Buckets.list_insert_self s (keyf x) x (by omega)
        refine ⟨?_, ?_⟩
        · rw [hfold, hstep.1, hcntins, List.filter_cons]
          simp
          omega
        · rw [hfold, hstep.2, hlistins, List.filter_cons]
          simp
      · have hk2 : k ≠ keyf x := fun h => hk h.symm
        have hcntins : (s.insert (keyf x) x).cnt k = s.cnt k := by
          rw [Buckets.cnt_insert]
          simp [hk2]
        have hlistins := Buckets.list_insert_other s (keyf x) k x hk2
        refine ⟨?_, ?_⟩
        · rw [hfold, hstep.1, hcntins, List.filter_cons]
          simp [hk]
        · rw [hfold, hstep.2, hlistins, List.filter_cons]
          simp [hk]

/-- With no bound on the batch, each uint8 bucket counter holds the
per-key element count modulo 256. -/
theorem buckets_foldl_cnt_mod {K A : Type} [DecidableEq K] (keyf : A → K) :
    ∀ (l : List A) (s : Buckets K A),
      (∀ k, s.cnt k < 256) →
      ∀ k, (l.foldl (fun s2 x => s2.insert (keyf x) x) s).cnt k
          = (s.cnt k + l.countP (fun x => keyf x = k)) % 256 := by
  intro l
  induction l with
  | nil =>
      intro s hs k
      simp [Nat.mod_eq_of_lt (hs k)]
  | cons x t ih =>
      intro s hs k
      have hlt : ∀ k2, (s.insert (keyf x) x).cnt k2 < 256 := by
        intro k2
        rw [Buckets.cnt_insert]
        by_cases hk2 : k2 = keyf x
        · simp [hk2, Nat.mod_lt _ (by omega : (0:Nat) < 256)]
        · simp [hk2]
          exact hs k2
      have hstep := ih (s.insert (keyf x) x) hlt k
      have hfold : (x :: t).foldl (fun s2 y => s2.insert (keyf y) y) s
          = t.foldl (fun s2 y => s2.insert (keyf y) y) (s.insert (keyf x) x) := rfl
      rw [hfold, hstep, Buckets.cnt_insert, List.countP_cons]
      by_cases hk : keyf x = k
      · subst hk
        simp [Nat.mod_add_mod]
        congr 1
        omega
      · have hk2 : k ≠ keyf x := fun h => hk h.symm
        simp [hk, hk2]

/-- Summing the per-owner counts over all interfaces recovers the list
length, provided every element decodes to a valid owner. -/
theorem sum_countP_owners (shift nI : Nat) :
    ∀ (l : List Nat), (∀ a ∈ l, decode_owner a shift < nI) →
      (∑ o ∈ Finset.range nI, l.countP (fun a => decode_owner a shift = o))
        = l.length := by
  intro l
  induction l with
  | nil => simp
  | cons a t ih =>
      intro h
      have hmem : decode_owner a shift < nI := h a (by simp)
      have ht : ∀ b ∈ t, decode_owner b shift < nI :=
        fun b hb => h b (by simp [hb])
      simp only [List.countP_cons, List.length_cons, decide_eq_true_eq]
      rw [Finset.sum_add_distrib, ih ht]
      have hsum : (∑ o ∈ Finset.range nI,
          if decode_owner a shift = o then (1 : Nat) else 0) = 1 := by
        rw [Finset.sum_ite_eq]
        simp [Finset.mem_range, hmem]
      rw [hsum]

/-- The drop-side state of the classify loop of process_batch is the
plain bucket fold over the descriptors the classifier mapped to -1. -/
theorem classify_batch_dropB (cls : Nat → Nat → Nat → Int) (ifidx : Nat) :
    ∀ (descs : List (Nat × Nat)) (s : ClassifyState),
      (descs.foldl (classify_step cls ifidx) s).dropB
        = (descs.filter
            (fun d => cls (addOffsetToAddr d.1) d.2 ifidx = -1)).foldl
            (fun b d => b.insert () d) s.dropB := by
  intro descs
  induction descs with
  | nil => intro s; simp
  | cons d t ih =>
      intro s
      by_cases hret : cls (addOffsetToAddr d.1) d.2 ifidx = -1
      · simp only [List.foldl_cons, List.filter_cons, hret]
        rw [ih]
        simp [classify_step, hret]
      · simp only [List.foldl_cons, List.filter_cons, hret]
        rw [ih]
        simp [classify_step, hret]

/-- The tx-side state of the classify loop of process_batch is the
keyed bucket fold over the descriptors the classifier did not drop,
keyed by the raw classifier return. -/
theorem classify_batch_txB (cls : Nat → Nat → Nat → Int) (ifidx : Nat) :
    ∀ (descs : List (Nat × Nat)) (s : ClassifyState),
      (descs.foldl (classify_step cls ifidx) s).txB
        = (descs.filter
            (fun d => ¬ cls (addOffsetToAddr d.1) d.2 ifidx = -1)).foldl
            (fun b d => b.insert (cls (addOffsetToAddr d.1) d.2 ifidx) d)
            s.txB := by
  intro descs
  induction descs with
  | nil => intro s; simp
  | cons d t ih =>
      intro s
      by_cases hret : cls (addOffsetToAddr d.1) d.2 ifidx = -1
      · simp only [List.foldl_cons, List.filter_cons, hret]
        rw [ih]
        simp [classify_step, hret]
      · simp only [List.foldl_cons, List.filter_cons, hret]
        rw [ih]
        simp [classify_step, hret]

/-- Same decomposition for the drop side of process_batch_1if. -/
theorem classify1if_batch_dropB (cls : Nat → Nat → Nat → Int) :
    ∀ (descs : List (Nat × Nat)) (s : Classify1ifState),
      (descs.foldl (classify1if_step cls) s).dropB
        = (descs.filter
            (fun d => cls (addOffsetToAddr d.1) d.2 0 = -1)).foldl
            (fun b d => b.insert () d) s.dropB := by
  intro descs
  induction descs with
  | nil => intro s; simp
  | cons d t ih =>
      intro s
      by_cases hret : cls (addOffsetToAddr d.1) d.2 0 = -1
      · simp only [List.foldl_cons, List.filter_cons, hret]
        rw [ih]
        simp [classify1if_step, hret]
      · simp only [List.foldl_cons, List.filter_cons, hret]
        rw [ih]
        simp [classify1if_step, hret]

/-- A fold of unkeyed inserts (key Unit) over at most 255 elements
appends exactly the folded list to the bucket slice. -/
theorem buckets_foldl_unit_list {A : Type} (l : List A) (s : Buckets Unit A)
    (h : s.cnt () + l.length ≤ 255) :
    (l.foldl (fun b x => b.insert () x) s).list () = s.list () ++ l := by
  have hh : ∀ k : Unit, s.cnt k + l.length ≤ 255 := fun k => by
    cases k; exact h
  have := (buckets_foldl_exact (fun _ => ()) l s hh ()).2
  simpa using this

theorem ffs_two_pow (f : Nat) : ffs (2 ^ f) = f + 1 := by
  induction f with
  | zero =>
      show ffs 1 = 1
      simp [ffs]
  | succ g ih =>
      obtain ⟨m, hm⟩ : ∃ m, 2 ^ (g + 1) = m + 1 :=
        ⟨2 ^ (g + 1) - 1, by
          have : 0 < 2 ^ (g + 1) := Nat.pos_pow_of_pos _ (by decide)
          omega⟩
      have heven : (m + 1) % 2 = 0 := by
        rw [← hm, pow_succ, Nat.mul_mod_left]
      have hhalf : (m + 1) / 2 = 2 ^ g := by
        rw [← hm, pow_succ, Nat.mul_div_cancel _ (by decide : 0 < 2)]
      rw [hm, ffs]
      simp [heven, hhalf, ih]

/-- Claim C4: for every interface index i < num_interfaces, every frame
index k in [0, 4096), and every in-frame offset d < frame_size, with
frame_size a power of two and owner_shift computed at init as
12 + log2(frame_size), the fill-ring address (i * 4096 + k) * frame_size
plus the offset d decodes back to owner i under a right shift by
owner_shift, hence the owner id is below num_interfaces. -/
theorem fill_addr_owner_roundtrip (nI i k d f : Nat)
    (hi : i < nI) (hk : k < FRAMES_PER_SOCKET) (hd : d < 2 ^ f) :
    decode_owner (fill_ring_addr i k (2 ^ f) + d) (owner_shift_of (2 ^ f)) = i ∧
    decode_owner (fill_ring_addr i k (2 ^ f) + d) (owner_shift_of (2 ^ f)) < nI := by
  have hshift : owner_shift_of (2 ^ f) = FRAMES_PER_SOCKET_SHIFT + f := by
    unfold owner_shift_of
    rw [ffs_two_pow]
    omega
  have hrew : fill_ring_addr i k (2 ^ f) + d =
      2 ^ (FRAMES_PER_SOCKET_SHIFT + f) * i + (k * 2 ^ f + d) := by
    unfold fill_ring_addr FRAMES_PER_SOCKET
    ring
  have hrem : k * 2 ^ f + d < 2 ^ (FRAMES_PER_SOCKET_SHIFT + f) := by
    have h1 : k * 2 ^ f + d < (k + 1) * 2 ^ f := by
      rw [Nat.succ_mul]
      exact Nat.add_lt_add_left hd _
    have h2 : (k + 1) * 2 ^ f ≤ 2 ^ FRAMES_PER_SOCKET_SHIFT * 2 ^ f :=
      Nat.mul_le_mul_right _ hk
    calc k * 2 ^ f + d < (k + 1) * 2 ^ f := h1
      _ ≤ 2 ^ FRAMES_PER_SOCKET_SHIFT * 2 ^ f := h2
      _ = 2 ^ (FRAMES_PER_SOCKET_SHIFT + f) := (pow_add 2 _ _).symm
  have hdec : decode_owner (fill_ring_addr i k (2 ^ f) + d)
      (owner_shift_of (2 ^ f)) = i := by
    unfold decode_owner
    rw [hshift, hrew, Nat.shiftRight_eq_div_pow,
      Nat.mul_add_div (Nat.pos_pow_of_pos _ (by decide)),
      Nat.div_eq_of_lt hrem]
    omega
  exact ⟨hdec, by rw [hdec]; exact hi⟩

theorem fill_addr_owner_roundtrip_witness :
    decode_owner (fill_ring_addr 1 5 (2 ^ 12) + 3) (owner_shift_of (2 ^ 12)) = 1 :=
  (fill_addr_owner_roundtrip 2 1 5 3 12 (by decide) (by decide) (by decide)).1

set_option maxRecDepth 4000

/-- Claim C2 (amended): a complete_tx drain of n completed addresses
buckets all n addresses by decoded owner and submits exactly n
addresses across the owner fill rings, with no address lost or
duplicated, PROVIDED n is at most 255: the per-owner counters are
uint8_t, so they hold counts only modulo 2^8 and a drain of 256 or
more same-owner addresses overwrites bucket slots and loses addresses
(see the counterexample). Likewise the per-destination tx and drop
counters of the process_batch classify loop count the classified
packets modulo 2^8. -/
theorem complete_tx_bucketing_and_batch_counters
    (shift nI : Nat) (addrs : List Nat)
    (cls : Nat → Nat → Nat → Int) (ifidx : Nat) (descs : List (Nat × Nat))
    (hlen : addrs.length ≤ 255)
    (hown : ∀ a ∈ addrs, decode_owner a shift < nI) :
    (∀ o, o < nI → complete_tx_submission (complete_tx_drain shift addrs) o
        = addrs.filter (fun a => decode_owner a shift = o))
    ∧ (∑ o ∈ Finset.range nI,
        (complete_tx_submission (complete_tx_drain shift addrs) o).length)
        = addrs.length
    ∧ (classify_batch cls ifidx descs).dropB.cnt ()
        = descs.countP
            (fun d => cls (addOffsetToAddr d.1) d.2 ifidx = -1) % 256
    ∧ (∀ r : Int, r ≠ -1 → (classify_batch cls ifidx descs).txB.cnt r
        = descs.countP
            (fun d => cls (addOffsetToAddr d.1) d.2 ifidx = r) % 256) := by
  have hempty : ∀ k : Nat,
      (Buckets.empty (0 : Nat) : Buckets Nat Nat).cnt k + addrs.length ≤ 255 := by
    intro k
    simpa [Buckets.empty] using hlen
  have hex := buckets_foldl_exact (fun a => decode_owner a shift) addrs
    (Buckets.empty 0) hempty
  have hsub : ∀ o, complete_tx_submission (complete_tx_drain shift addrs) o
      = addrs.filter (fun a => decode_owner a shift = o) := by
    intro o
    have h2 := (hex o).2
    simp only [Buckets.empty, Buckets.list, List.range_zero, List.map_nil,
      List.nil_append] at h2
    exact h2
  refine ⟨fun o _ => hsub o, ?_, ?_, ?_⟩
  · have hcong : (∑ o ∈ Finset.range nI,
        (complete_tx_submission (complete_tx_drain shift addrs) o).length)
        = ∑ o ∈ Finset.range nI,
            addrs.countP (fun a => decode_owner a shift = o) := by
      apply Finset.sum_congr rfl
      intro o _
      rw [hsub o, ← List.countP_eq_length_filter]
    rw [hcong, sum_countP_owners shift nI addrs hown]
  · have hd := classify_batch_dropB cls ifidx descs
      ⟨Buckets.empty (0, 0), Buckets.empty (0, 0)⟩
    have hmod := buckets_foldl_cnt_mod (fun _ : Nat × Nat => ())
      (descs.filter (fun d => cls (addOffsetToAddr d.1) d.2 ifidx = -1))
      (Buckets.empty (0, 0)) (by intro k; simp [Buckets.empty]) ()
    have hcnt : (classify_batch cls ifidx descs).dropB.cnt () =
        (0 + (descs.filter
          (fun d => cls (addOffsetToAddr d.1) d.2 ifidx = -1)).countP
          (fun _ => True)) % 256 := by
      show ((descs.foldl (classify_step cls ifidx)
        ⟨Buckets.empty (0, 0), Buckets.empty (0, 0)⟩).dropB).cnt () = _
      rw [hd]
      simpa [Buckets.empty] using hmod
    rw [hcnt]
    congr 1
    simp [List.countP_eq_length_filter, List.filter_filter]
  · intro r hr
    have ht := classify_batch_txB cls ifidx descs
      ⟨Buckets.empty (0, 0), Buckets.empty (0, 0)⟩
    have hmod := buckets_foldl_cnt_mod
      (fun d : Nat × Nat => cls (addOffsetToAddr d.1) d.2 ifidx)
      (descs.filter (fun d => ¬ cls (addOffsetToAddr d.1) d.2 ifidx = -1))
      (Buckets.empty (0, 0)) (by intro k; simp [Buckets.empty]) r
    have hcnt : (classify_batch cls ifidx descs).txB.cnt r =
        (0 + (descs.filter
          (fun d => ¬ cls (addOffsetToAddr d.1) d.2 ifidx = -1)).countP
          (fun d => cls (addOffsetToAddr d.1) d.2 ifidx = r)) % 256 := by
      show ((descs.foldl (classify_step cls ifidx)
        ⟨Buckets.empty (0, 0), Buckets.empty (0, 0)⟩).txB).cnt r = _
      rw [ht]
      simpa [Buckets.empty] using hmod
    rw [hcnt]
    congr 1
    rw [Nat.zero_add, List.countP_filter]
    apply List.countP_congr
    intro d _
    by_cases hd : cls (addOffsetToAddr d.1) d.2 ifidx = r
    · simp [hd, hr]
    · simp [hd]

theorem complete_tx_bucketing_witness :
    complete_tx_submission (complete_tx_drain 12 [0, 4096, 1]) 0 = [0, 1]
    ∧ complete_tx_submission (complete_tx_drain 12 [0, 4096, 1]) 1 = [4096] := by
  have h := complete_tx_bucketing_and_batch_counters 12 2 [0, 4096, 1]
    (fun _ _ _ => 0) 0 [] (by decide) (by decide)
  constructor
  · rw [h.1 0 (by decide)]
    decide
  · rw [h.1 1 (by decide)]
    decide

/-- Counterexample to claim C2 as stated: a drain of 256 addresses all
owned by interface 0 (within the spec batch-size range 1..511)
submits NOTHING, because the uint8_t counter nfill[0] wraps to 0; all
256 addresses are lost. -/
theorem complete_tx_bucketing_wrap_counterexample :
    (List.replicate 256 (0 : Nat)).length = 256
    ∧ (∀ a ∈ List.replicate 256 (0 : Nat), decode_owner a 12 < 1)
    ∧ complete_tx_submission (complete_tx_drain 12 (List.replicate 256 0)) 0
        = [] := by
  refine ⟨by simp, ?_, ?_⟩
  · intro a ha
    have h0 := List.eq_of_mem_replicate ha
    subst h0
    decide
  · have hmod := buckets_foldl_cnt_mod (fun a : Nat => decode_owner a 12)
      (List.replicate 256 0) (Buckets.empty 0)
      (by intro k; simp [Buckets.empty]) 0
    have hcountP : (List.replicate 256 (0 : Nat)).countP
        (fun a => decode_owner a 12 = 0) = 256 := by decide
    have hcnt : (complete_tx_drain 12 (List.replicate 256 0)).cnt 0 = 0 := by
      show ((List.replicate 256 (0 : Nat)).foldl
        (fun s addr => s.insert (decode_owner addr 12) addr)
        (Buckets.empty 0)).cnt 0 = 0
      rw [hmod, hcountP]
      simp [Buckets.empty]
    unfold complete_tx_submission Buckets.list
    rw [hcnt]
    simp

/-- Claim C5 (amended): in a batch in which at most 255 descriptors are
received (so the uint8_t drop counter cannot wrap), every received
descriptor whose classifier call returns -1 has its exact original
64-bit address - in-frame offset bits included, since the
offset-adjusted address is only used to locate packet bytes - submitted
back on the ingress fill ring in the same batch, in both the
multi-interface and the single-interface run-loop; the submission is
precisely the original addresses of the dropped descriptors in order.
For batches with 256 or more drops the uint8_t counter wraps and drops
are lost (see the counterexample). -/
theorem drop_addr_roundtrip_below_256
    (cls : Nat → Nat → Nat → Int) (ifidx : Nat) (descs : List (Nat × Nat))
    (hlen : descs.length ≤ 255) :
    drop_fill_submission (classify_batch cls ifidx descs)
        = (descs.filter
            (fun d => cls (addOffsetToAddr d.1) d.2 ifidx = -1)).map Prod.fst
    ∧ drop_fill_submission_1if (classify1if_batch cls descs)
        = (descs.filter
            (fun d => cls (addOffsetToAddr d.1) d.2 0 = -1)).map Prod.fst
    ∧ (∀ d ∈ descs, cls (addOffsetToAddr d.1) d.2 ifidx = -1 →
        d.1 ∈ drop_fill_submission (classify_batch cls ifidx descs)) := by
  have hmulti : drop_fill_submission (classify_batch cls ifidx descs)
      = (descs.filter
          (fun d => cls (addOffsetToAddr d.1) d.2 ifidx = -1)).map Prod.fst := by
    have hd := classify_batch_dropB cls ifidx descs
      ⟨Buckets.empty (0, 0), Buckets.empty (0, 0)⟩
    have hflen : (descs.filter
        (fun d => cls (addOffsetToAddr d.1) d.2 ifidx = -1)).length ≤ 255 :=
      le_trans (List.length_filter_le _ _) hlen
    have hunit := buckets_foldl_unit_list
      (descs.filter (fun d => cls (addOffsetToAddr d.1) d.2 ifidx = -1))
      (Buckets.empty (0, 0)) (by simpa [Buckets.empty] using hflen)
    unfold drop_fill_submission
    show (((descs.foldl (classify_step cls ifidx)
      ⟨Buckets.empty (0, 0), Buckets.empty (0, 0)⟩).dropB).list ()).map
        Prod.fst = _
    rw [hd]
    rw [hunit]
    simp [Buckets.empty, Buckets.list]
  have h1if : drop_fill_submission_1if (classify1if_batch cls descs)
      = (descs.filter
          (fun d => cls (addOffsetToAddr d.1) d.2 0 = -1)).map Prod.fst := by
    have hd := classify1if_batch_dropB cls descs
      ⟨Buckets.empty (0, 0), Buckets.empty (0, 0)⟩
    have hflen : (descs.filter
        (fun d => cls (addOffsetToAddr d.1) d.2 0 = -1)).length ≤ 255 :=
      le_trans (List.length_filter_le _ _) hlen
    have hunit := buckets_foldl_unit_list
      (descs.filter (fun d => cls (addOffsetToAddr d.1) d.2 0 = -1))
      (Buckets.empty (0, 0)) (by simpa [Buckets.empty] using hflen)
    unfold drop_fill_submission_1if
    show (((descs.foldl (classify1if_step cls)
      ⟨Buckets.empty (0, 0), Buckets.empty (0, 0)⟩).dropB).list ()).map
        Prod.fst = _
    rw [hd]
    rw [hunit]
    simp [Buckets.empty, Buckets.list]
  refine ⟨hmulti, h1if, ?_⟩
  intro d hd hret
  rw [hmulti]
  apply List.mem_map_of_mem
  rw [List.mem_filter]
  exact ⟨hd, by simp [hret]⟩

theorem drop_addr_roundtrip_witness :
    drop_fill_submission
      (classify_batch (fun _ _ _ => -1) 0 [(2 ^ 48 * 3 + 7, 5)])
      = [2 ^ 48 * 3 + 7] := by
  have h := drop_addr_roundtrip_below_256 (fun _ _ _ => -1) 0
    [(2 ^ 48 * 3 + 7, 5)] (by decide)
  rw [h.1]
  simp

/-- Counterexample to claim C5 as stated: in a batch of 256 received
descriptors all classified -1 (batch sizes up to 511 are in the spec
range), the uint8_t drop counter ndrop wraps to 0 and NO address is
submitted back on the fill ring, so the first dropped descriptor's
address is not returned. -/
theorem drop_addr_roundtrip_wrap_counterexample :
    ((0 : Nat), (0 : Nat)) ∈ List.replicate 256 ((0 : Nat), (0 : Nat))
    ∧ (fun _ _ _ => (-1 : Int)) (addOffsetToAddr 0) 0 7 = -1
    ∧ drop_fill_submission
        (classify_batch (fun _ _ _ => (-1 : Int)) 7
          (List.replicate 256 (0, 0))) = [] := by
  refine ⟨by simp, rfl, ?_⟩
  have hd := classify_batch_dropB (fun _ _ _ => (-1 : Int)) 7
    (List.replicate 256 (0, 0))
    ⟨Buckets.empty (0, 0), Buckets.empty (0, 0)⟩
  have hfilt : (List.replicate 256 ((0 : Nat), (0 : Nat))).filter
      (fun d => (fun _ _ _ => (-1 : Int)) (addOffsetToAddr d.1) d.2 7 = -1)
      = List.replicate 256 (0, 0) := by decide
  have hmod := buckets_foldl_cnt_mod (fun _ : Nat × Nat => ())
    (List.replicate 256 ((0 : Nat), (0 : Nat))) (Buckets.empty (0, 0))
    (by intro k; simp [Buckets.empty]) ()
  have hcnt : (classify_batch (fun _ _ _ => (-1 : Int)) 7
      (List.replicate 256 (0, 0))).dropB.cnt () = 0 := by
    show ((List.replicate 256 ((0 : Nat), (0 : Nat))).foldl
      (classify_step (fun _ _ _ => (-1 : Int)) 7)
      ⟨Buckets.empty (0, 0), Buckets.empty (0, 0)⟩).dropB.cnt () = 0
    rw [hd, hfilt, hmod]
    simp [Buckets.empty]
  unfold drop_fill_submission Buckets.list
  rw [hcnt]
  simp

/-- Claim C1 (amended): the run-loop performs NO validation of the
classifier return value: a return of -1 goes to the drop queue and
ANY other return r is enqueued - in process_batch into the tx bucket
indexed by the raw value r (an out-of-bounds array write in C when r
is outside [0, num_interfaces)), in process_batch_1if into the single
tx queue - and no abort with a diagnostic happens at this dispatch in
either run-loop specialisation. -/
theorem classify_no_validation (ret : Int) :
    (ret = -1 → classifyVerdict ret = .dropped
      ∧ classifyVerdict1if ret = .dropped)
    ∧ (ret ≠ -1 → classifyVerdict ret = .enqueueTx ret
      ∧ classifyVerdict1if ret = .enqueueTx 0)
    ∧ classifyVerdict ret ≠ .abortFatal
    ∧ classifyVerdict1if ret ≠ .abortFatal := by
  by_cases h : ret = -1 <;>
    simp [classifyVerdict, classifyVerdict1if, h]

theorem classify_no_validation_witness :
    classifyVerdict 7 = .enqueueTx 7 ∧ classifyVerdict1if 7 = .enqueueTx 0 :=
  (classify_no_validation 7).2.1 (by decide)

/-- Counterexample to claim C1 as stated: with two configured
interfaces a classifier return of 7 is neither -1 nor a valid
interface index, yet the code enqueues the packet into tx bucket 7
instead of aborting, diverging from the behaviour the spec demands
(classifyVerdictSpec). -/
theorem classify_no_validation_counterexample :
    classifyVerdict 7 = .enqueueTx 7
    ∧ classifyVerdictSpec 2 7 = .abortFatal
    ∧ classifyVerdict 7 ≠ classifyVerdictSpec 2 7 := by
  refine ⟨rfl, ?_, ?_⟩ <;> decide

/-- Claim C6 (amended): xsknf_cleanup is NOT idempotent. The first
call after init releases every resource and is safe - including when
it is the call made by the fatal-error helper __exit_with_error - but
a second call frees the already-freed worker arrays (AF_XDP mode) or
ifindex table (any mode): a double free, not a no-op. -/
theorem cleanup_not_idempotent (modeAfxdp : Bool) :
    ∃ s1, xsknf_cleanup modeAfxdp initCleanupState = .ok s1
      ∧ xsknf_cleanup modeAfxdp s1 = .error .doubleFree := by
  cases modeAfxdp
  · exact ⟨⟨true, false⟩, rfl, rfl⟩
  · exact ⟨⟨false, false⟩, rfl, rfl⟩

/-- Counterexample to claim C6 as stated: in AF_XDP mode, calling
xsknf_cleanup a second time on the state the first call left behind
performs a double free instead of leaving the state unchanged. -/
theorem cleanup_second_call_counterexample :
    xsknf_cleanup true initCleanupState = .ok ⟨false, false⟩
    ∧ xsknf_cleanup true ⟨false, false⟩ = .error .doubleFree :=
  ⟨rfl, rfl⟩

/-- Claim C7 (amended): a failure of the kernel XDP statistics read is
NOT surfaced to the caller: xsknf_get_socket_stats discards the error
code of xsk_get_xdp_stats and always returns 0 (the failure is indeed
non-fatal). The caller buffer always receives the current counters:
unchanged socket stats on a failed read, the stats with the six driver
counters overwritten on a successful full-size read. -/
theorem get_socket_stats_swallows_error
    (kr : Except Int (XdpStatistics × Nat)) (st : XsknfSocketStats) :
    (xsknf_get_socket_stats kr st).1 = 0
    ∧ (∀ e, kr = .error e → (xsknf_get_socket_stats kr st).2.2 = st)
    ∧ (∀ x, kr = .ok (x, 48) → (xsknf_get_socket_stats kr st).2.2
        = { st with
            rx_dropped_npkts := x.rx_dropped,
            rx_invalid_npkts := x.rx_invalid_descs,
            tx_invalid_npkts := x.tx_invalid_descs,
            rx_full_npkts := x.rx_ring_full,
            rx_fill_empty_npkts := x.rx_fill_ring_empty_descs,
            tx_empty_npkts := x.tx_ring_empty_descs }) := by
  refine ⟨rfl, ?_, ?_⟩
  · intro e he
    subst he
    rfl
  · intro x hx
    subst hx
    simp [xsknf_get_socket_stats, xsk_get_xdp_stats]

theorem get_socket_stats_swallows_error_witness :
    (xsknf_get_socket_stats (Except.error (-1))
      ⟨0, 0, 0, 0, 0, 0, 0, 0, 0, 0, 0, 0⟩).1 = 0
    ∧ (xsknf_get_socket_stats (Except.error (-1))
      ⟨0, 0, 0, 0, 0, 0, 0, 0, 0, 0, 0, 0⟩).2.2
        = ⟨0, 0, 0, 0, 0, 0, 0, 0, 0, 0, 0, 0⟩ := by
  have h := get_socket_stats_swallows_error (Except.error (-1))
    ⟨0, 0, 0, 0, 0, 0, 0, 0, 0, 0, 0, 0⟩
  exact ⟨h.1, h.2.1 (-1) rfl⟩

/-- Counterexample to claim C7 as stated: when the kernel read fails
(here with error -1) the function still returns 0, not a non-zero
result. -/
theorem get_socket_stats_counterexample :
    (xsknf_get_socket_stats (Except.error (-1))
      ⟨0, 0, 0, 0, 0, 0, 0, 0, 0, 0, 0, 0⟩).1 = 0 := rfl

/-- Claim C9: xsknf_parse_args accepts a frame size of 0 in aligned
mode: with C int arithmetic 0 & (0 - 1) = 0 & -1 = 0, so the
power-of-two test passes, the 0 is stored in the configuration and
parse_args returns 0. -/
theorem parse_args_accepts_zero_frame_size (nIfaces : Nat)
    (h : 0 < nIfaces) :
    xsknf_parse_frame_size 0 false nIfaces = .ok (0, 0) := by
  have hn : ¬ nIfaces = 0 := by omega
  have hland : landC32 0 (-1) = 0 := by decide
  simp [xsknf_parse_frame_size, hn, hland]

theorem parse_args_accepts_zero_frame_size_witness :
    xsknf_parse_frame_size 0 false 1 = .ok (0, 0) :=
  parse_args_accepts_zero_frame_size 1 (by decide)

/-- Claim C3 (amended): when reserving ntx entries on the destination
tx ring fails, the worker loops until the reservation succeeds, and in
each retry iteration it calls complete_tx on the INGRESS socket - the
interface whose batch process_batch is processing - not on the
destination socket j as the spec says; the kicking sendto, issued when
busy-poll is on or the destination tx ring needs wakeup, does go to
destination j. As long as the failing reservation results are
non-negative no other interface is completed or kicked and no fatal
exit occurs, and one reservation attempt is made per failure plus the
final succeeding one. -/
theorem tx_retry_loop_behaviour (ifindex dest ntx : Nat) (bp : Bool)
    (results : List (Int × Bool))
    (hres : ∀ q ∈ results, 0 ≤ q.1 ∧ q.1 ≠ (ntx : Int)) :
    ((txRetryLoop ifindex dest ntx bp results).countP
        (fun a => a = FwdAct.callCompleteTx ifindex) = results.length)
    ∧ (∀ j, j ≠ ifindex →
        FwdAct.callCompleteTx j ∉ txRetryLoop ifindex dest ntx bp results)
    ∧ (∀ j, FwdAct.kick j ∈ txRetryLoop ifindex dest ntx bp results →
        j = dest)
    ∧ FwdAct.fatal ∉ txRetryLoop ifindex dest ntx bp results
    ∧ ((txRetryLoop ifindex dest ntx bp results).countP
        (fun a => a = FwdAct.reserveTx dest ntx) = results.length + 1) := by
  induction results with
  | nil =>
      refine ⟨?_, ?_, ?_, ?_, ?_⟩ <;> simp [txRetryLoop]
  | cons q rest ih =>
      obtain ⟨r, w⟩ := q
      have hq := hres (r, w) (by simp)
      have hrest : ∀ p ∈ rest, 0 ≤ p.1 ∧ p.1 ≠ (ntx : Int) :=
        fun p hp => hres p (by simp [hp])
      have ih2 := ih hrest
      have hr1 : ¬ r = (ntx : Int) := hq.2
      have hr2 : ¬ r < 0 := by
        have := hq.1
        omega
      have hunfold : txRetryLoop ifindex dest ntx bp ((r, w) :: rest)
          = FwdAct.reserveTx dest ntx :: FwdAct.callCompleteTx ifindex ::
            ((if bp || w then [FwdAct.kick dest] else [])
              ++ txRetryLoop ifindex dest ntx bp rest) := by
        simp [txRetryLoop, hr1, hr2]
      rw [hunfold]
      refine ⟨?_, ?_, ?_, ?_, ?_⟩
      · by_cases hbw : (bp || w) = true <;>
          simp [hbw, List.countP_cons, List.countP_append, ih2.1]
      · intro j hj
        by_cases hbw : (bp || w) = true <;>
          simp [hbw, hj, ih2.2.1 j hj]
      · intro j hjmem
        by_cases hbw : (bp || w) = true
        · simp [hbw] at hjmem
          rcases hjmem with h | h
          · exact h
          · exact ih2.2.2.1 j h
        · simp [hbw] at hjmem
          exact ih2.2.2.1 j hjmem
      · by_cases hbw : (bp || w) = true <;>
          simp [hbw, ih2.2.2.2.1]
      · by_cases hbw : (bp || w) = true <;>
          simp [hbw, List.countP_cons, List.countP_append, ih2.2.2.2.2]

theorem tx_retry_loop_witness :
    (txRetryLoop 0 1 5 true [(0, false)]).countP
        (fun a => a = FwdAct.callCompleteTx 0) = 1
    ∧ FwdAct.fatal ∉ txRetryLoop 0 1 5 true [(0, false)] := by
  have h := tx_retry_loop_behaviour 0 1 5 true [(0, false)] (by decide)
  exact ⟨h.1, h.2.2.2.1⟩

/-- Counterexample to claim C3 as stated: with ingress interface 0 and
destination interface 1, one failed reservation produces a retry
iteration that calls complete_tx on socket 0 - the ingress - and not
on destination socket 1, while the kick does target socket 1. -/
theorem tx_retry_loop_counterexample :
    FwdAct.callCompleteTx 0 ∈ txRetryLoop 0 1 5 false [(0, true)]
    ∧ FwdAct.callCompleteTx 1 ∉ txRetryLoop 0 1 5 false [(0, true)]
    ∧ FwdAct.kick 1 ∈ txRetryLoop 0 1 5 false [(0, true)] := by decide

theorem xsks_inner_pass (workers : Nat) (f : Nat → Nat) :
    ∀ (m : XsksMap) (k : Nat),
      ((List.range workers).foldl
        (fun m2 w => bpf_map_update m2 w (f w)) m) k
        = if k < workers then some (f k) else m k := by
  induction workers with
  | zero => intro m k; simp
  | succ n ih =>
      intro m k
      rw [List.range_succ, List.foldl_append]
      simp only [List.foldl_cons, List.foldl_nil]
      have hupd : ∀ (m2 : XsksMap), bpf_map_update m2 n (f n) k
          = if k = n then some (f n) else m2 k := fun m2 => rfl
      rw [hupd]
      by_cases hk : k = n
      · subst hk
        simp
      · rw [if_neg hk, ih m k]
        by_cases hlt : k < n
        · have hlt2 : k < n + 1 := by omega
          simp [hlt, hlt2]
        · have hlt2 : ¬ k < n + 1 := by omega
          simp [hlt, hlt2]

/-- Claim C10: in COMBINED mode enter_xsks_into_map keys the xsks map
by the worker index alone for every (interface, worker) pair, so with
more than one interface each successive interface overwrites the
previous entry and after init the map entry of worker k holds exactly
the socket fd of worker k for the LAST configured interface. -/
theorem enter_xsks_into_map_overwrites (nI workers : Nat)
    (fd : Nat → Nat → Nat) (k : Nat) (hn : 0 < nI) (hk : k < workers) :
    enter_xsks_into_map nI workers fd k = some (fd k (nI - 1)) := by
  obtain ⟨m, rfl⟩ : ∃ m, nI = m + 1 := ⟨nI - 1, by omega⟩
  unfold enter_xsks_into_map
  rw [List.range_succ, List.foldl_append]
  simp only [List.foldl_cons, List.foldl_nil]
  rw [xsks_inner_pass]
  simp [hk]

theorem enter_xsks_into_map_witness :
    enter_xsks_into_map 2 2 (fun w i => 10 * w + i) 0 = some 1
    ∧ enter_xsks_into_map 2 2 (fun w i => 10 * w + i) 1 = some 11 := by
  have h0 := enter_xsks_into_map_overwrites 2 2 (fun w i => 10 * w + i) 0
    (by decide) (by decide)
  have h1 := enter_xsks_into_map_overwrites 2 2 (fun w i => 10 * w + i) 1
    (by decide) (by decide)
  exact ⟨by simpa using h0, by simpa using h1⟩

/-- Claim C8: for every interface, bind-flag resolution at init
satisfies: when SKB mode is requested globally the resolved flags have
XDP_COPY set and XDP_ZEROCOPY cleared with every other bit of the
32-bit flag word preserved; otherwise, when neither copy nor zero-copy
was explicitly requested, XDP_ZEROCOPY is added, and when one was
requested the flags are left untouched. -/
theorem resolve_bind_flags_correct (skbMode : Bool) (flags : Nat)
    (hf : flags < 2 ^ 32) :
    (skbMode = true →
      (resolveBindFlags skbMode flags).testBit 1 = true
      ∧ (resolveBindFlags skbMode flags).testBit 2 = false
      ∧ (∀ b, b ≠ 1 → b ≠ 2 →
          (resolveBindFlags skbMode flags).testBit b = flags.testBit b))
    ∧ (skbMode = false → flags &&& (XDP_COPY ||| XDP_ZEROCOPY) = 0 →
        resolveBindFlags skbMode flags = flags ||| XDP_ZEROCOPY)
    ∧ (skbMode = false → flags &&& (XDP_COPY ||| XDP_ZEROCOPY) ≠ 0 →
        resolveBindFlags skbMode flags = flags) := by
  have h21 : Nat.testBit XDP_COPY 1 = true := by decide
  have h22 : Nat.testBit XDP_COPY 2 = false := by decide
  have h61 : Nat.testBit (XDP_COPY ||| XDP_ZEROCOPY) 1 = true := by decide
  have hM2 : Nat.testBit 0xFFFFFFFB 2 = false := by decide
  have hMall : ∀ b, b < 32 → b ≠ 2 → Nat.testBit 0xFFFFFFFB b = true := by
    decide
  have hCall : ∀ b, b < 32 → b ≠ 1 → Nat.testBit XDP_COPY b = false := by
    decide
  refine ⟨?_, ?_, ?_⟩
  · intro hskb
    subst hskb
    have hf1bit1 : (flags &&& 0xFFFFFFFB ||| XDP_COPY).testBit 1 = true := by
      rw [Nat.testBit_lor, h21, Bool.or_true]
    have hcond : ¬ ((flags &&& 0xFFFFFFFB ||| XDP_COPY)
        &&& (XDP_COPY ||| XDP_ZEROCOPY) = 0) := by
      intro h0
      have hb : ((flags &&& 0xFFFFFFFB ||| XDP_COPY)
          &&& (XDP_COPY ||| XDP_ZEROCOPY)).testBit 1 = true := by
        rw [Nat.testBit_land, hf1bit1, h61]
        rfl
      rw [h0] at hb
      simp at hb
    have hres : resolveBindFlags true flags
        = flags &&& 0xFFFFFFFB ||| XDP_COPY := by
      unfold resolveBindFlags
      simp [hcond]
    refine ⟨?_, ?_, ?_⟩
    · rw [hres, hf1bit1]
    · rw [hres, Nat.testBit_lor, Nat.testBit_land, h22, hM2]
      simp
    · intro b hb1 hb2
      by_cases hb32 : b < 32
      · rw [hres, Nat.testBit_lor, Nat.testBit_land, hMall b hb32 hb2,
          hCall b hb32 hb1]
        simp
      · have hbig : (2 : Nat) ^ 32 ≤ 2 ^ b :=
          Nat.pow_le_pow_right (by decide) (by omega)
        have hflags : flags.testBit b = false :=
          Nat.testBit_lt_two_pow (by omega)
        have hresbound : flags &&& 0xFFFFFFFB ||| XDP_COPY < 2 ^ b := by
          have hland : flags &&& 0xFFFFFFFB ≤ flags := Nat.and_le_left
          have h1 : flags &&& 0xFFFFFFFB < 2 ^ 32 := by omega
          have h2 : XDP_COPY < 2 ^ 32 := by decide
          have := Nat.or_lt_two_pow h1 h2
          omega
        rw [hres, Nat.testBit_lt_two_pow hresbound, hflags]
  · intro hskb hnone
    subst hskb
    unfold resolveBindFlags
    simp [hnone]
  · intro hskb hsome
    subst hskb
    unfold resolveBindFlags
    simp [hsome]

theorem resolve_bind_flags_witness :
    (resolveBindFlags true 8).testBit 1 = true
    ∧ (resolveBindFlags true 8).testBit 2 = false
    ∧ (resolveBindFlags true 8).testBit 3 = (8 : Nat).testBit 3
    ∧ resolveBindFlags false 8 = 8 ||| XDP_ZEROCOPY
    ∧ resolveBindFlags false 6 = 6 := by
  have h1 := resolve_bind_flags_correct true 8 (by decide)
  have h2 := resolve_bind_flags_correct false 8 (by decide)
  have h3 := resolve_bind_flags_correct false 6 (by decide)
  exact ⟨(h1.1 rfl).1, (h1.1 rfl).2.1,
    (h1.1 rfl).2.2 3 (by decide) (by decide),
    h2.2.1 rfl (by decide), h3.2.2 rfl (by decide)⟩
